import Mathlib

/-
Verification of the quietbox-demo voice-assistant core against its
natural-language specification.

The development shallowly embeds the relevant Python source:
  * src/backends/speech_monitor.py  (SpeechMonitor)
  * src/backends/record_vad.py      (Recorder.record_to_wav)
  * src/backends/interruptible_tts.py (InterruptibleTTS)
  * src/main.py                     (run_loop, the turn controller)

Conventions:
  * real wall-clock timestamps observed by `time.time()` are modelled as
    rational numbers supplied by the environment, one per loop iteration
    (the several `time.time()` calls inside a single iteration are
    microseconds apart and are modelled as a single instant);
  * audio samples are rationals; the floating-point `np.sqrt` is modelled
    by `Real.sqrt`, and executable comparison against a threshold is done
    on the squared values, with the equivalence to the square-root form
    proved (`isLoud_iff_rms_gt`, `uiGuard_iff_rms_gt`);
  * Python exceptions are modelled by an explicit error result that the
    embedded `try/except` handlers pattern-match on.
-/

namespace QuietBox

/-! ## SpeechMonitor (src/backends/speech_monitor.py)

State of a `SpeechMonitor` object.  `speechDetected = none` models the
`speech_detected` attribute not existing yet (it is only created by
`start_monitoring`); `some b` models an existing `threading.Event` whose
`is_set()` is `b`. -/

structure MonitorSt where
  speechDetected : Option Bool
  isMonitoring : Bool
deriving DecidableEq, Repr

namespace MonitorSt

/-- Fresh monitor object (`SpeechMonitor.__init__`): no `speech_detected`
attribute yet, not monitoring. -/
def init : MonitorSt := ⟨none, false⟩

/-- `start_monitoring`: creates a brand-new `threading.Event()` (hence a
*cleared* flag) and sets `is_monitoring = True`. -/
def start_monitoring (s : MonitorSt) : MonitorSt :=
  { s with speechDetected := some false, isMonitoring := true }

/-- `stop_monitoring`: clears `is_monitoring`, stops and joins the stream
and thread, and deliberately does not touch `speech_detected`
("Don't clear speech_detected flag here - let caller check it first"). -/
def stop_monitoring (s : MonitorSt) : MonitorSt :=
  { s with isMonitoring := false }

/-- `check_interrupt`: returns `speech_detected.is_set()` when the
attribute exists, else `False`. -/
def check_interrupt (s : MonitorSt) : Bool :=
  match s.speechDetected with
  | some b => b
  | none => false

/-- `reset`: clears the flag when the attribute exists, else does
nothing. -/
def reset (s : MonitorSt) : MonitorSt :=
  { s with speechDetected := s.speechDetected.map (fun _ => false) }

/-- The `_monitor_loop` thread raising the signal:
`self.speech_detected.set()`. -/
def setSignal (s : MonitorSt) : MonitorSt :=
  { s with speechDetected := some true }

end MonitorSt

/-- Operations a caller may perform between setting and resetting the
signal, per claim C6: `stop_monitoring` and (state-wise identity)
`check_interrupt`. -/
inductive MonOp
  | stopOp
  | checkOp
deriving DecidableEq, Repr

/-- Apply a sequence of monitor operations. -/
def applyMonOps (l : List MonOp) (s : MonitorSt) : MonitorSt :=
  match l with
  | [] => s
  | MonOp.stopOp :: t => applyMonOps t s.stop_monitoring
  | MonOp.checkOp :: t => applyMonOps t s

/-- The `finally:` block of the speaking phase in `run_loop`
(src/main.py lines 287-292): the controller reads
`speech_monitor.check_interrupt()` into `was_interrupted` *before*
calling `stop_monitoring()`, and does not reset yet.  Returns the
observed flag and the monitor state afterwards. -/
def controllerFinally (s : MonitorSt) : Bool × MonitorSt :=
  (s.check_interrupt, s.stop_monitoring)

end QuietBox

namespace QuietBox

/-! ## Claim theorems for the monitor -/

/-- C1: if the InterruptSignal is set before `stop_monitoring()` is
called, a `check_interrupt()` made after `stop_monitoring()` (and before
any `reset()`) still returns true; `stop_monitoring` never touches the
flag; and the controller's `finally:` block observes the flag (reads
true) before stopping and resetting the monitor. -/
theorem monitor_interrupt_survives_stop (s : MonitorSt)
    (h : s.check_interrupt = true) :
    s.stop_monitoring.check_interrupt = true ∧
    s.stop_monitoring.speechDetected = s.speechDetected ∧
    (controllerFinally s).1 = true ∧
    (controllerFinally s).2.check_interrupt = true := by
  refine ⟨?_, rfl, h, ?_⟩ <;>
    simpa [MonitorSt.check_interrupt, MonitorSt.stop_monitoring,
      controllerFinally] using h

/-- Witness for C1: a monitor that was started and then had the signal
raised by the monitoring thread. -/
theorem monitor_interrupt_survives_stop_witness :
    (MonitorSt.init.start_monitoring.setSignal.check_interrupt = true) ∧
    (MonitorSt.init.start_monitoring.setSignal.stop_monitoring.check_interrupt
      = true) :=
  ⟨by decide,
   (monitor_interrupt_survives_stop MonitorSt.init.start_monitoring.setSignal
      (by decide)).1⟩

/-- C6 counterexample: `start_monitoring` *does* clear a previously set
InterruptSignal, because it installs a brand-new `threading.Event()`.
So it is not the case that only `reset()` clears the signal. -/
theorem start_monitoring_clears_signal :
    (MonitorSt.init.start_monitoring.setSignal.check_interrupt = true) ∧
    (MonitorSt.init.start_monitoring.setSignal.start_monitoring.check_interrupt
      = false) := by
  decide

/-- C6 (amended): once set, the InterruptSignal stays set under any
sequence of `stop_monitoring` / `check_interrupt` operations until
`reset()` is called; `reset` clears it, and `start_monitoring`
re-initialises it to cleared. -/
theorem monitor_latching (s : MonitorSt) (l : List MonOp) :
    (applyMonOps l s).check_interrupt = s.check_interrupt ∧
    s.reset.check_interrupt = false ∧
    s.start_monitoring.check_interrupt = false := by
  refine ⟨?_, ?_, rfl⟩
  · induction l generalizing s with
    | nil => rfl
    | cons op t ih =>
      cases op with
      | stopOp =>
        simpa [applyMonOps, MonitorSt.check_interrupt,
          MonitorSt.stop_monitoring] using ih s.stop_monitoring
      | checkOp => simpa [applyMonOps] using ih s
  · cases h : s.speechDetected <;>
      simp [MonitorSt.reset, MonitorSt.check_interrupt, h]

/-- C9: `reset()` is idempotent — a second `reset()` right after a first
one changes nothing (it is a total operation, so no error), and the flag
remains cleared. -/
theorem reset_idempotent (s : MonitorSt) :
    s.reset.reset = s.reset ∧ s.reset.reset.check_interrupt = false := by
  cases h : s.speechDetected <;>
    simp [MonitorSt.reset, MonitorSt.check_interrupt, h]

end QuietBox

namespace QuietBox

/-! ## Recorder.record_to_wav (src/backends/record_vad.py)

One microphone frame as seen by one iteration of the `for f in
self._frame_gen()` loop: its VAD classification and the wall-clock
instant `t` at which `time.time()` is observed during that iteration. -/

structure RecFrame where
  voiced : Bool
  t : ℚ
deriving DecidableEq, Repr

/-- Parameters of `Recorder.__init__` relevant to the stopping rule.
The no-speech timeout is hard-coded to 5.0 seconds in `record_to_wav`
and therefore not a field here.  `minFrames` is `record_to_wav`'s
`min_frames = int(samplerate * min_seconds / frame_len)`. -/
structure RecParams where
  minFrames : ℕ
  silenceTailSec : ℚ
  maxSeconds : ℚ
deriving DecidableEq, Repr

/-- Default parameters: `samplerate=16000`, `frame_ms=30` (so
`frame_len = 480`), `min_seconds=0.5` giving
`min_frames = int(16000*0.5/480) = 16`; `silence_tail_ms=1200` giving
1.2 s; `max_seconds=15`. -/
def defaultRecParams : RecParams := ⟨16, 12 / 10, 15⟩

/-- Mutable loop state of `record_to_wav`: number of appended frames
(`len(frames)`), whether any voiced frame was seen (`speech_detected`),
the instant of the last voiced frame (`last_speech_time`), and the call
start instant (`start`). -/
structure RecState where
  numFrames : ℕ
  speechDetected : Bool
  lastSpeechTime : ℚ
  start : ℚ
deriving DecidableEq, Repr

/-- Initial state of a `record_to_wav` call starting at instant
`start`: no frames, no speech, `last_speech_time = start`. -/
def recInit (start : ℚ) : RecState := ⟨0, false, start, start⟩

/-- Why the recording loop broke. -/
inductive StopReason
  | noSpeechTimeout
  | silenceAfterSpeech
  | maxTimeout
deriving DecidableEq, Repr

/-- Effect of one loop iteration on the state, before the stop checks:
append the frame, and if it is voiced update `frames_with_speech`
bookkeeping, `last_speech_time` and `speech_detected`. -/
def recStep (s : RecState) (f : RecFrame) : RecState :=
  { s with
    numFrames := s.numFrames + 1
    speechDetected := s.speechDetected || f.voiced
    lastSpeechTime := if f.voiced then f.t else s.lastSpeechTime }

/-- The three `break` checks of `record_to_wav`, in source order, applied
to the post-append state `s` with the current iteration's observed
instant `f.t` (`elapsed = time.time() - start`):
(a) `not speech_detected and elapsed > 5.0`;
(b) `len(frames) >= min_frames and speech_detected` and
    `silence_duration >= silence_tail_ms / 1000`;
(c) `elapsed > max_seconds`. -/
def stopCheck (p : RecParams) (s : RecState) (f : RecFrame) :
    Option StopReason :=
  if s.speechDetected = false ∧ f.t - s.start > 5 then
    some StopReason.noSpeechTimeout
  else if s.numFrames ≥ p.minFrames ∧ s.speechDetected = true ∧
      f.t - s.lastSpeechTime ≥ p.silenceTailSec then
    some StopReason.silenceAfterSpeech
  else if f.t - s.start > p.maxSeconds then
    some StopReason.maxTimeout
  else none

/-- The recording loop over a (finite prefix of the) frame stream:
process frames in order, stopping at the first one whose post-append
checks fire.  Returns the final state and the stop reason (`none` when
the supplied prefix was exhausted without stopping). -/
def recordRun (p : RecParams) (s : RecState) :
    List RecFrame → RecState × Option StopReason
  | [] => (s, none)
  | f :: fs =>
    let s' := recStep s f
    match stopCheck p s' f with
    | some r => (s', some r)
    | none => recordRun p s' fs

/-- State after processing a list of frames with no stop check applied. -/
def stateAfter (s : RecState) (frames : List RecFrame) : RecState :=
  frames.foldl recStep s

/-- Stop condition (a) as worded by the spec: no voiced frame has been
observed and elapsed time exceeds the no-speech timeout (5 s). -/
def specStopA (s : RecState) (f : RecFrame) : Prop :=
  s.speechDetected = false ∧ f.t - s.start > 5

/-- Stop condition (b) as worded by the spec: at least one voiced frame
was observed, elapsed silence since the last voiced frame is at least
the silence-tail duration, and the total frame count is at least the
minimum-duration floor. -/
def specStopB (p : RecParams) (s : RecState) (f : RecFrame) : Prop :=
  s.speechDetected = true ∧ f.t - s.lastSpeechTime ≥ p.silenceTailSec ∧
    s.numFrames ≥ p.minFrames

/-- Stop condition (c) as worded by the spec: total elapsed time exceeds
the max-duration, regardless of voicing state. -/
def specStopC (p : RecParams) (s : RecState) (f : RecFrame) : Prop :=
  f.t - s.start > p.maxSeconds

instance (s : RecState) (f : RecFrame) : Decidable (specStopA s f) := by
  unfold specStopA; infer_instance

instance (p : RecParams) (s : RecState) (f : RecFrame) :
    Decidable (specStopB p s f) := by
  unfold specStopB; infer_instance

instance (p : RecParams) (s : RecState) (f : RecFrame) :
    Decidable (specStopC p s f) := by
  unfold specStopC; infer_instance

/-- First satisfied of the spec's stop rules, in the order (a), (b),
(c). -/
def specFirstStop (p : RecParams) (s : RecState) (f : RecFrame) :
    Option StopReason :=
  if specStopA s f then some StopReason.noSpeechTimeout
  else if specStopB p s f then some StopReason.silenceAfterSpeech
  else if specStopC p s f then some StopReason.maxTimeout
  else none

/-- The source's per-frame stop decision is exactly the spec's
"first satisfied wins" over rules (a), (b), (c). -/
theorem stopCheck_eq_specFirstStop (p : RecParams) (s : RecState)
    (f : RecFrame) : stopCheck p s f = specFirstStop p s f := by
  unfold stopCheck specFirstStop specStopA specStopB specStopC
  split_ifs <;> tauto

/-- The stop decision taken at (0-based) iteration `k` of the recording
loop: the checks applied to the state after appending frames
`0..k` with the instant observed at iteration `k`. -/
def firesAt (p : RecParams) (s0 : RecState) (frames : List RecFrame)
    (k : ℕ) : Option StopReason :=
  match frames.get? k with
  | some f => stopCheck p (stateAfter s0 (frames.take (k + 1))) f
  | none => none

theorem stateAfter_cons (s : RecState) (f : RecFrame) (l : List RecFrame) :
    stateAfter s (f :: l) = stateAfter (recStep s f) l := rfl

theorem firesAt_cons (p : RecParams) (s0 : RecState) (f : RecFrame)
    (fs : List RecFrame) (k : ℕ) :
    firesAt p s0 (f :: fs) (k + 1) = firesAt p (recStep s0 f) fs k := rfl

/-- Characterisation of the recording loop: it returns a stop reason
exactly when some iteration's checks fire, it stops at the *first* such
iteration, and the returned state is the state at that iteration. -/
theorem recordRun_eq_iff (p : RecParams) (s0 : RecState)
    (frames : List RecFrame) (s : RecState) (r : StopReason) :
    recordRun p s0 frames = (s, some r) ↔
      ∃ k, firesAt p s0 frames k = some r ∧
        (∀ j, j < k → firesAt p s0 frames j = none) ∧
        s = stateAfter s0 (frames.take (k + 1)) := by
  induction frames generalizing s0 with
  | nil =>
    simp only [recordRun, firesAt, List.get?_nil]
    constructor
    · intro h
      exact absurd (congrArg Prod.snd h) (by simp)
    · rintro ⟨k, hk, -⟩
      simp at hk
  | cons f fs ih =>
    by_cases h0 : stopCheck p (recStep s0 f) f = none
    · have lhs : recordRun p s0 (f :: fs) = recordRun p (recStep s0 f) fs := by
        simp [recordRun, h0]
      rw [lhs, ih (recStep s0 f)]
      constructor
      · rintro ⟨k, hk, hprev, hs⟩
        refine ⟨k + 1, ?_, ?_, ?_⟩
        · rwa [firesAt_cons]
        · intro j hj
          cases j with
          | zero =>
            simpa [firesAt, stateAfter_cons] using h0
          | succ j' =>
            rw [firesAt_cons]
            exact hprev j' (by omega)
        · simpa [stateAfter_cons] using hs
      · rintro ⟨k, hk, hprev, hs⟩
        cases k with
        | zero =>
          rw [show firesAt p s0 (f :: fs) 0 =
            stopCheck p (recStep s0 f) f from rfl] at hk
          exact absurd hk (by simp [h0])
        | succ k' =>
          refine ⟨k', ?_, ?_, ?_⟩
          · rwa [firesAt_cons] at hk
          · intro j hj
            have := hprev (j + 1) (by omega)
            rwa [firesAt_cons] at this
          · simpa [stateAfter_cons] using hs
    · obtain ⟨r', hr'⟩ := Option.ne_none_iff_exists'.mp h0
      have lhs : recordRun p s0 (f :: fs) = (recStep s0 f, some r') := by
        simp [recordRun, hr']
      rw [lhs]
      constructor
      · intro h
        obtain ⟨hs, hr⟩ := Prod.mk.injEq .. ▸ h
        refine ⟨0, ?_, by omega, ?_⟩
        · show stopCheck p (recStep s0 f) f = some r
          rw [hr']
          exact congrArg some (Option.some.injEq .. ▸ hr.symm ▸ rfl)
        · simpa [stateAfter_cons, stateAfter] using hs.symm
      · rintro ⟨k, hk, hprev, hs⟩
        cases k with
        | zero =>
          have hk0 : stopCheck p (recStep s0 f) f = some r := hk
          rw [hr'] at hk0
          have : r' = r := by injection hk0
          subst this
          have : s = recStep s0 f := by
            simpa [stateAfter_cons, stateAfter] using hs
          rw [this]
        | succ k' =>
          have := hprev 0 (by omega)
          have h00 : stopCheck p (recStep s0 f) f = none := this
          rw [hr'] at h00
          simp at h00

/-- C2: the recording loop stops exactly at the first iteration at which
one of the stopping rules fires, and the per-iteration decision is the
spec's "first satisfied wins" over rule (a) (no voiced frame yet and
more than 5 s elapsed), rule (b) (speech observed, silence since the
last voiced frame at least the silence tail, and at least the minimum
frame floor), and rule (c) (elapsed beyond max-duration). -/
theorem record_stopping_rule (p : RecParams) (s0 : RecState)
    (frames : List RecFrame) (s : RecState) (r : StopReason) :
    (recordRun p s0 frames = (s, some r) ↔
      ∃ k, firesAt p s0 frames k = some r ∧
        (∀ j, j < k → firesAt p s0 frames j = none) ∧
        s = stateAfter s0 (frames.take (k + 1))) ∧
    (∀ s' f, stopCheck p s' f = specFirstStop p s' f) :=
  ⟨recordRun_eq_iff p s0 frames s r,
   fun s' f => stopCheck_eq_specFirstStop p s' f⟩

end QuietBox

namespace QuietBox

/-! ## RMS energy

The source computes `np.sqrt(np.mean(block**2))` (speech_monitor.py) and
`np.sqrt(np.mean(np.abs(chunk)**2))` (interruptible_tts.py) on float
arrays.  Samples are modelled as rationals; the square root lives in `ℝ`.
Executable threshold comparisons are done on the squared values, and
`isLoud_iff_rms_gt` / `uiGuard_iff_rms_gt` prove them equivalent to the
square-root form the source computes. -/

/-- Mean of squared samples, `np.mean(audio**2)`.  The empty list gives
`0 / 0 = 0`, matching the requirement that an empty slice is treated as
`0`, never `NaN`. -/
def meanSq (xs : List ℚ) : ℚ :=
  (xs.map (fun a => a * a)).sum / (xs.length : ℚ)

theorem meanSq_nonneg (xs : List ℚ) : 0 ≤ meanSq xs := by
  apply div_nonneg
  · apply List.sum_nonneg
    intro a ha
    obtain ⟨x, -, rfl⟩ := List.mem_map.mp ha
    exact mul_self_nonneg x
  · exact_mod_cast Nat.zero_le _

/-- RMS of a frame or slice: `np.sqrt(np.mean(audio**2))` — the square
root of the mean of squared sample magnitudes. -/
noncomputable def frameRMS (xs : List ℚ) : ℝ :=
  Real.sqrt ((meanSq xs : ℚ) : ℝ)

/-- Executable form of the per-frame test `audio_rms > self.threshold`
from `_monitor_loop`, via squared values. -/
def isLoud (θ : ℚ) (xs : List ℚ) : Bool :=
  decide (θ < 0) || decide (θ * θ < meanSq xs)

/-- `isLoud` decides exactly the source's comparison
`np.sqrt(np.mean(audio**2)) > threshold`. -/
theorem isLoud_iff_rms_gt (θ : ℚ) (xs : List ℚ) :
    isLoud θ xs = true ↔ (θ : ℝ) < frameRMS xs := by
  unfold isLoud frameRMS
  rw [Bool.or_eq_true, decide_eq_true_eq, decide_eq_true_eq]
  by_cases hθ : θ < 0
  · refine ⟨fun _ => ?_, fun _ => Or.inl hθ⟩
    calc (θ : ℝ) < 0 := by exact_mod_cast hθ
      _ ≤ _ := Real.sqrt_nonneg _
  · have hθ' : (0 : ℝ) ≤ ((θ : ℚ) : ℝ) := by
      have := not_lt.mp hθ
      exact_mod_cast this
    rw [Real.lt_sqrt hθ']
    constructor
    · rintro (h | h)
      · exact absurd h hθ
      · have h' : ((θ * θ : ℚ) : ℝ) < ((meanSq xs : ℚ) : ℝ) := by exact_mod_cast h
        calc (θ : ℝ) ^ 2 = ((θ * θ : ℚ) : ℝ) := by push_cast; ring
          _ < _ := h'
    · intro h
      refine Or.inr ?_
      have h' : ((θ * θ : ℚ) : ℝ) < ((meanSq xs : ℚ) : ℝ) := by
        calc ((θ * θ : ℚ) : ℝ) = (θ : ℝ) ^ 2 := by push_cast; ring
          _ < _ := h
      exact_mod_cast h'

/-! ## SpeechMonitor._monitor_loop (src/backends/speech_monitor.py)

The background loop: per 100 ms block, compute the block RMS; a block
above threshold increments `consecutive_speech_frames`, a block at or
below it resets the counter to 0; when the counter reaches 3 the loop
sets `speech_detected` and breaks (so all later blocks are ignored).
The `queue.Empty: continue` branch delivers no block and is invisible in
a model indexed by delivered blocks. -/

/-- The monitor loop over the list of delivered audio blocks, with
current value `c` of `consecutive_speech_frames`; returns whether
`speech_detected` was set. -/
def monitorRun (θ : ℚ) : List (List ℚ) → ℕ → Bool
  | [], _ => false
  | b :: bs, c =>
    if isLoud θ b then
      if c + 1 ≥ 3 then true else monitorRun θ bs (c + 1)
    else monitorRun θ bs 0

/-- Counter-free core of `monitorRun` over the booleanised block list. -/
def auxRun : List Bool → ℕ → Bool
  | [], _ => false
  | b :: bs, c =>
    if b then if c + 1 ≥ 3 then true else auxRun bs (c + 1)
    else auxRun bs 0

theorem monitorRun_eq_auxRun (θ : ℚ) (c : ℕ) (frames : List (List ℚ)) :
    monitorRun θ frames c = auxRun (frames.map (isLoud θ)) c := by
  induction frames generalizing c with
  | nil => rfl
  | cons b bs ih =>
    by_cases h : isLoud θ b <;>
      simp [monitorRun, auxRun, h, ih]

/-- Three consecutive `true` entries starting at index `i`. -/
def win3 (bl : List Bool) (i : ℕ) : Prop :=
  bl.get? i = some true ∧ bl.get? (i + 1) = some true ∧
    bl.get? (i + 2) = some true

theorem get?_pad (c : ℕ) (b : Bool) (bs : List Bool) (k : ℕ) :
    (List.replicate c true ++ b :: bs).get? (c + 1 + k) = bs.get? k := by
  rw [List.get?_append_right (by simp; omega)]
  simp only [List.length_replicate]
  rw [show c + 1 + k - c = k + 1 by omega]
  rfl

theorem get?_pad_self (c : ℕ) (b : Bool) (bs : List Bool) :
    (List.replicate c true ++ b :: bs).get? c = some b := by
  rw [List.get?_append_right (by simp)]
  simp

theorem auxRun_true_iff (bl : List Bool) :
    ∀ c, c < 3 → (auxRun bl c = true ↔ ∃ i, win3 (List.replicate c true ++ bl) i) := by
  induction bl with
  | nil =>
    intro c hc
    simp only [auxRun, List.append_nil]
    constructor
    · intro h; cases h
    · rintro ⟨i, -, -, h2⟩
      rw [List.get?_eq_some] at h2
      obtain ⟨hlt, -⟩ := h2
      simp only [List.length_replicate] at hlt
      omega
  | cons b bs ih =>
    intro c hc
    cases b with
    | true =>
      by_cases h3 : c + 1 ≥ 3
      · have hc2 : c = 2 := by omega
        subst hc2
        have hstep : auxRun (true :: bs) 2 = true := by
          simp [auxRun]
        rw [hstep]
        simp only [true_iff]
        exact ⟨0, rfl, rfl, rfl⟩
      · have hstep : auxRun (true :: bs) c = auxRun bs (c + 1) := by
          simp [auxRun, h3]
        have heq : List.replicate (c + 1) true ++ bs =
            List.replicate c true ++ (true :: bs) := by
          rw [List.replicate_succ']
          simp
        rw [hstep, ih (c + 1) (by omega), heq]
    | false =>
      have hstep : auxRun (false :: bs) c = auxRun bs 0 := by
        simp [auxRun]
      rw [hstep, ih 0 (by omega)]
      simp only [List.replicate, List.nil_append]
      constructor
      · rintro ⟨i, h0, h1, h2⟩
        refine ⟨c + 1 + i, ?_, ?_, ?_⟩
        · rw [get?_pad]; exact h0
        · rw [show c + 1 + i + 1 = c + 1 + (i + 1) by omega, get?_pad]; exact h1
        · rw [show c + 1 + i + 2 = c + 1 + (i + 2) by omega, get?_pad]; exact h2
      · rintro ⟨i, h0, h1, h2⟩
        by_cases hic : c + 1 ≤ i
        · refine ⟨i - c - 1, ?_, ?_, ?_⟩
          · rw [← get?_pad c false bs (i - c - 1),
              show c + 1 + (i - c - 1) = i by omega]
            exact h0
          · rw [← get?_pad c false bs (i - c - 1 + 1),
              show c + 1 + (i - c - 1 + 1) = i + 1 by omega]
            exact h1
          · rw [← get?_pad c false bs (i - c - 1 + 2),
              show c + 1 + (i - c - 1 + 2) = i + 2 by omega]
            exact h2
        · exfalso
          have hcf := get?_pad_self c false bs
          have : c = i ∨ c = i + 1 ∨ c = i + 2 := by omega
          rcases this with h | h | h
          · rw [← h] at h0; rw [hcf] at h0; cases h0
          · rw [← h] at h1; rw [hcf] at h1; cases h1
          · rw [← h] at h2; rw [hcf] at h2; cases h2

/-- Frame at index `i` is above threshold, in the source's square-root
form. -/
def loudAt (θ : ℚ) (frames : List (List ℚ)) (i : ℕ) : Prop :=
  ∃ b, frames.get? i = some b ∧ (θ : ℝ) < frameRMS b

theorem map_get?_true_iff (θ : ℚ) (frames : List (List ℚ)) (i : ℕ) :
    (frames.map (isLoud θ)).get? i = some true ↔ loudAt θ frames i := by
  rw [List.get?_map]
  unfold loudAt
  cases h : frames.get? i with
  | none => simp
  | some b => simp [isLoud_iff_rms_gt]

/-- C4: the monitor raises the InterruptSignal exactly when 3
consecutive delivered blocks have RMS energy strictly above the
threshold; a block at or below threshold resets the consecutive count
to zero; and once raised the remaining blocks are ignored (the loop
breaks, so appending further blocks cannot change the outcome). -/
theorem monitor_onset_debounce (θ : ℚ) (frames : List (List ℚ)) :
    (monitorRun θ frames 0 = true ↔
      ∃ i, loudAt θ frames i ∧ loudAt θ frames (i + 1) ∧
        loudAt θ frames (i + 2)) ∧
    (∀ c b bs, (θ : ℝ) < frameRMS b → monitorRun θ (b :: bs) c =
      if c + 1 ≥ 3 then true else monitorRun θ bs (c + 1)) ∧
    (∀ c b bs, ¬ ((θ : ℝ) < frameRMS b) → monitorRun θ (b :: bs) c =
      monitorRun θ bs 0) ∧
    (∀ c l1 l2, monitorRun θ l1 c = true →
      monitorRun θ (l1 ++ l2) c = true) := by
  refine ⟨?_, ?_, ?_, ?_⟩
  · rw [monitorRun_eq_auxRun, auxRun_true_iff (frames.map (isLoud θ)) 0 (by omega)]
    simp only [List.replicate, List.nil_append]
    constructor
    · rintro ⟨i, h0, h1, h2⟩
      exact ⟨i, (map_get?_true_iff θ frames i).mp h0,
        (map_get?_true_iff θ frames (i + 1)).mp h1,
        (map_get?_true_iff θ frames (i + 2)).mp h2⟩
    · rintro ⟨i, h0, h1, h2⟩
      exact ⟨i, (map_get?_true_iff θ frames i).mpr h0,
        (map_get?_true_iff θ frames (i + 1)).mpr h1,
        (map_get?_true_iff θ frames (i + 2)).mpr h2⟩
  · intro c b bs hb
    have hl : isLoud θ b = true := (isLoud_iff_rms_gt θ b).mpr hb
    simp [monitorRun, hl]
  · intro c b bs hb
    have hl : isLoud θ b = false := by
      rw [← Bool.not_eq_true, isLoud_iff_rms_gt]; exact hb
    simp [monitorRun, hl]
  · intro c l1 l2 h
    induction l1 generalizing c with
    | nil => simp [monitorRun] at h
    | cons b bs ih =>
      rw [List.cons_append]
      by_cases hb : isLoud θ b
      · by_cases h3 : c + 1 ≥ 3
        · simp [monitorRun, hb, h3]
        · simp only [monitorRun, hb, if_true, h3, if_false] at h ⊢
          exact ih (c + 1) h
      · simp only [monitorRun, hb, Bool.false_eq_true, if_false] at h ⊢
        exact ih 0 h

/-- Witness for C4: with threshold `1/1000` (the default), three blocks
of constant sample `1` trigger the monitor, and sequences with a quiet
block between loud ones do not reach 3 consecutive. -/
theorem monitor_onset_debounce_witness :
    monitorRun (1 / 1000) [[1], [1], [1]] 0 = true ∧
    monitorRun (1 / 1000) [[1], [1], [0], [1], [1]] 0 = false ∧
    (∃ i, loudAt (1 / 1000) [[1], [1], [1]] i ∧
      loudAt (1 / 1000) [[1], [1], [1]] (i + 1) ∧
      loudAt (1 / 1000) [[1], [1], [1]] (i + 2)) := by
  refine ⟨by with_unfolding_all rfl, by with_unfolding_all rfl, ?_⟩
  exact (monitor_onset_debounce (1 / 1000) [[1], [1], [1]]).1.mp
    (by with_unfolding_all rfl)

end QuietBox

namespace QuietBox

/-! ## InterruptibleTTS._play_with_interruption (src/backends/interruptible_tts.py)

The polling loop runs in 50 ms ticks: at tick `k` the accumulated
`elapsed` is `k * 0.05 = k / 20` seconds, and the `while elapsed <
total_duration` guard with `total_duration = len(audio_data) /
samplerate` is `k / 20 < len / sr`, i.e. `k * sr < 20 * len`.  The
environment supplies, per tick, the externally observable answers of
`stop_playback.is_set()`, `interrupt_check_callback()` and
`sd.get_stream().active`, plus injected unexpected exceptions (from
`sd.play` or from a tick body) which the outer `try/except` catches. -/

structure PlayEnv where
  stopRequested : ℕ → Bool
  hasInterruptCb : Bool
  interruptPoll : ℕ → Bool
  hasUi : Bool
  streamActive : ℕ → Bool
  playRaises : Bool
  raiseAt : Option ℕ

/-- Observable playback effects.  `uiLevel k chunk` records the call
`ui_callback(audio_rms)` made at tick `k`, where `audio_rms` is the RMS
of `chunk` (see `sliceRMS`); `deviceStop` is `sd.stop()`; `waitDrain`
is `sd.wait()`. -/
inductive PlayEff
  | play
  | deviceStop
  | uiLevel (k : ℕ) (chunk : List ℚ)
  | waitDrain
deriving DecidableEq, Repr

/-- How one `_play_with_interruption` call resolved. -/
inductive PlayOutcome
  | completed
  | cancelled
  | interrupted
  | failed
deriving DecidableEq, Repr

/-- Result of the `try:` body: a normal outcome, or a raised exception
for the `except Exception` handler. -/
inductive InnerRes
  | ok (o : PlayOutcome)
  | err
deriving DecidableEq, Repr

/-- `chunk_size = int(samplerate * 0.05)`. -/
def chunkSize (sr : ℕ) : ℕ := sr / 20

/-- Mean of squared magnitudes `np.mean(np.abs(chunk)**2)`.  The empty
slice gives `0 / 0 = 0`. -/
def meanAbsSq (xs : List ℚ) : ℚ :=
  (xs.map (fun a => |a| * |a|)).sum / (xs.length : ℚ)

theorem meanAbsSq_nonneg (xs : List ℚ) : 0 ≤ meanAbsSq xs := by
  apply div_nonneg
  · apply List.sum_nonneg
    intro a ha
    obtain ⟨x, -, rfl⟩ := List.mem_map.mp ha
    exact mul_self_nonneg |x|
  · exact_mod_cast Nat.zero_le _

/-- RMS of a playback slice:
`np.sqrt(np.mean(np.abs(chunk)**2))`. -/
noncomputable def sliceRMS (xs : List ℚ) : ℝ :=
  Real.sqrt ((meanAbsSq xs : ℚ) : ℝ)

/-- Executable form of the noise-floor gate `audio_rms > 0.0001`, via
squared values. -/
def uiGuard (xs : List ℚ) : Bool :=
  decide ((1 / 10000 : ℚ) * (1 / 10000) < meanAbsSq xs)

/-- `uiGuard` decides exactly the source's comparison
`np.sqrt(np.mean(np.abs(chunk)**2)) > 0.0001`. -/
theorem uiGuard_iff_rms_gt (xs : List ℚ) :
    uiGuard xs = true ↔ ((1 : ℝ) / 10000) < sliceRMS xs := by
  unfold uiGuard sliceRMS
  rw [decide_eq_true_eq, Real.lt_sqrt (by norm_num)]
  constructor
  · intro h
    have h' : ((1 / 10000 * (1 / 10000) : ℚ) : ℝ) < ((meanAbsSq xs : ℚ) : ℝ) := by
      exact_mod_cast h
    calc ((1 : ℝ) / 10000) ^ 2 = ((1 / 10000 * (1 / 10000) : ℚ) : ℝ) := by
          push_cast; ring
      _ < _ := h'
  · intro h
    have h' : ((1 / 10000 * (1 / 10000) : ℚ) : ℝ) < ((meanAbsSq xs : ℚ) : ℝ) := by
      calc ((1 / 10000 * (1 / 10000) : ℚ) : ℝ) = ((1 : ℝ) / 10000) ^ 2 := by
            push_cast; ring
        _ < _ := h
    exact_mod_cast h'

/-- The slice of the *source* buffer at elapsed playback time `e`:
`current_sample = int(elapsed * samplerate)`,
`audio_data[current_sample : min(current_sample + chunk_size, len)]`. -/
def sliceAt (audio : List ℚ) (sr : ℕ) (e : ℚ) : List ℚ :=
  (audio.drop (Nat.floor (e * (sr : ℚ)))).take (chunkSize sr)

/-- The UI branch of one tick: if the current position is inside the
buffer and the slice is non-empty and its RMS exceeds the noise floor,
invoke `ui_callback` with that slice's RMS. -/
def uiTick (audio : List ℚ) (sr : ℕ) (k : ℕ) : List PlayEff :=
  let cur := k * sr / 20
  if cur < audio.length then
    let chunk := (audio.drop cur).take (chunkSize sr)
    if 0 < chunk.length then
      if uiGuard chunk then [PlayEff.uiLevel k chunk] else []
    else []
  else []

/-- The polling loop body of `_play_with_interruption`, from tick `k`.
The checks are in source order: `stop_playback.is_set()`, then the
interrupt callback (which sets the flag and stops the device), then the
UI level computation, then the stream-finished check; `sd.wait()` runs
after the loop when the flag was never set.  `fuel` only bounds the
recursion; the wrapper passes more fuel than the guard can consume, and
the fuel-exhaustion default is a plain loop exit. -/
def playBody (env : PlayEnv) (audio : List ℚ) (sr : ℕ) :
    ℕ → ℕ → List PlayEff × InnerRes
  | 0, _ => ([PlayEff.waitDrain], InnerRes.ok PlayOutcome.completed)
  | fuel + 1, k =>
    if k * sr < 20 * audio.length then
      if env.raiseAt = some k then ([], InnerRes.err)
      else if env.stopRequested k then
        ([PlayEff.deviceStop], InnerRes.ok PlayOutcome.cancelled)
      else if env.hasInterruptCb && env.interruptPoll k then
        ([PlayEff.deviceStop], InnerRes.ok PlayOutcome.interrupted)
      else
        let uiEffs := if env.hasUi then uiTick audio sr k else []
        if env.streamActive k then
          let next := playBody env audio sr fuel (k + 1)
          (uiEffs ++ next.1, next.2)
        else (uiEffs ++ [PlayEff.waitDrain], InnerRes.ok PlayOutcome.completed)
    else ([PlayEff.waitDrain], InnerRes.ok PlayOutcome.completed)

/-- The whole `try:` body: `sd.play(...)` (which may raise) followed by
the polling loop. -/
def playAttempt (env : PlayEnv) (audio : List ℚ) (sr : ℕ) :
    List PlayEff × InnerRes :=
  if env.playRaises then ([], InnerRes.err)
  else
    let run := playBody env audio sr (20 * audio.length + 1) 0
    (PlayEff.play :: run.1, run.2)

/-- `_play_with_interruption`: the `try:` body with its
`except Exception` handler, which prints, calls `sd.stop()` and lets
the call return normally — modelled as a `failed` outcome value. -/
def playWithInterruption (env : PlayEnv) (audio : List ℚ) (sr : ℕ) :
    List PlayEff × PlayOutcome :=
  match playAttempt env audio sr with
  | (tr, InnerRes.ok o) => (tr, o)
  | (tr, InnerRes.err) => (tr ++ [PlayEff.deviceStop], PlayOutcome.failed)

theorem playBody_ui_mem (env : PlayEnv) (audio : List ℚ) (sr : ℕ) :
    ∀ fuel k0 k s, PlayEff.uiLevel k s ∈ (playBody env audio sr fuel k0).1 →
      k * sr < 20 * audio.length ∧
      s = (audio.drop (k * sr / 20)).take (chunkSize sr) ∧
      0 < s.length ∧ uiGuard s = true := by
  intro fuel
  induction fuel with
  | zero =>
    intro k0 k s h
    simp [playBody] at h
  | succ fuel ih =>
    intro k0 k s h
    rw [playBody] at h
    by_cases hg : k0 * sr < 20 * audio.length
    · rw [if_pos hg] at h
      by_cases hr : env.raiseAt = some k0
      · rw [if_pos hr] at h; simp at h
      · rw [if_neg hr] at h
        by_cases hs : env.stopRequested k0
        · rw [if_pos hs] at h; simp at h
        · rw [if_neg hs] at h
          by_cases hi : env.hasInterruptCb && env.interruptPoll k0
          · rw [if_pos hi] at h; simp at h
          · rw [if_neg hi] at h
            have hui : ∀ s', PlayEff.uiLevel k s' ∈
                (if env.hasUi then uiTick audio sr k0 else []) →
                k * sr < 20 * audio.length ∧
                s' = (audio.drop (k * sr / 20)).take (chunkSize sr) ∧
                0 < s'.length ∧ uiGuard s' = true := by
              intro s' hmem
              by_cases hu : env.hasUi
              · rw [if_pos hu] at hmem
                unfold uiTick at hmem
                by_cases hcur : k0 * sr / 20 < audio.length
                · rw [if_pos hcur] at hmem
                  by_cases hlen :
                      0 < ((audio.drop (k0 * sr / 20)).take (chunkSize sr)).length
                  · rw [if_pos hlen] at hmem
                    by_cases hgd :
                        uiGuard ((audio.drop (k0 * sr / 20)).take (chunkSize sr))
                    · rw [if_pos hgd] at hmem
                      rcases List.mem_singleton.mp hmem with heq
                      obtain ⟨hk, hs'⟩ : k0 = k ∧
                          s' = (audio.drop (k0 * sr / 20)).take (chunkSize sr) := by
                        cases heq; exact ⟨rfl, rfl⟩
                      subst hk
                      subst hs'
                      exact ⟨hg, rfl, hlen, hgd⟩
                    · rw [if_neg hgd] at hmem; simp at hmem
                  · rw [if_neg hlen] at hmem; simp at hmem
                · rw [if_neg hcur] at hmem; simp at hmem
              · rw [if_neg hu] at hmem; simp at hmem
            by_cases hstr : env.streamActive k0
            · rw [if_pos hstr] at h
              simp only [List.mem_append] at h
              rcases h with h | h
              · exact hui s h
              · exact ih (k0 + 1) k s h
            · rw [if_neg hstr] at h
              simp only [List.mem_append, List.mem_singleton] at h
              rcases h with h | h
              · exact hui s h
              · cases h
    · rw [if_neg hg] at h
      simp at h

/-- Elapsed-time bookkeeping: the integer sample position
`int(elapsed * samplerate)` at tick `k` (with `elapsed = k / 20`) is
`k * sr / 20` in integer division. -/
theorem floor_tick_mul (k sr : ℕ) :
    Nat.floor (((k : ℚ) / 20) * (sr : ℚ)) = k * sr / 20 := by
  have h1 : ((k : ℚ) / 20) * (sr : ℚ) = ((k * sr : ℕ) : ℚ) / ((20 : ℕ) : ℚ) := by
    push_cast; ring
  rw [h1, Nat.floor_div_nat, Nat.floor_natCast]

/-- C8: every level value forwarded to `ui_callback` during playback is
the RMS — square root of the mean of squared sample magnitudes — of the
slice of the *source* buffer at the current elapsed position
`k * 0.05`; it is forwarded only when the slice is non-empty and its
RMS exceeds the `0.0001` noise floor; the guard decides exactly the
square-root comparison; and the RMS of an empty or silent slice is `0`
(never undefined). -/
theorem play_ui_rms_semantics (env : PlayEnv) (audio : List ℚ) (sr : ℕ) :
    (∀ k s, PlayEff.uiLevel k s ∈ (playWithInterruption env audio sr).1 →
      s = sliceAt audio sr ((k : ℚ) / 20) ∧ 0 < s.length ∧
      ((1 : ℝ) / 10000) < sliceRMS s ∧ k * sr < 20 * audio.length) ∧
    (∀ xs, uiGuard xs = true ↔ ((1 : ℝ) / 10000) < sliceRMS xs) ∧
    sliceRMS [] = 0 ∧
    (∀ xs, (∀ a ∈ xs, a = 0) → sliceRMS xs = 0) := by
  refine ⟨?_, uiGuard_iff_rms_gt, ?_, ?_⟩
  · intro k s hmem
    have hmem' : PlayEff.uiLevel k s ∈ (playAttempt env audio sr).1 ∨
        PlayEff.uiLevel k s ∈ [PlayEff.deviceStop] := by
      unfold playWithInterruption at hmem
      rcases hres : playAttempt env audio sr with ⟨tr, res⟩
      rw [hres] at hmem
      cases res with
      | ok o => exact Or.inl (by simpa [hres] using hmem)
      | err =>
        simp only at hmem
        rcases List.mem_append.mp hmem with h | h
        · exact Or.inl (by simpa [hres] using h)
        · exact Or.inr h
    rcases hmem' with hmem' | hmem'
    · unfold playAttempt at hmem'
      by_cases hpr : env.playRaises
      · rw [if_pos hpr] at hmem'; simp at hmem'
      · rw [if_neg hpr] at hmem'
        simp only [List.mem_cons] at hmem'
        rcases hmem' with h | h
        · cases h
        · obtain ⟨hk, hs, hlen, hgd⟩ :=
            playBody_ui_mem env audio sr (20 * audio.length + 1) 0 k s h
          refine ⟨?_, hlen, (uiGuard_iff_rms_gt s).mp hgd, hk⟩
          rw [hs]
          unfold sliceAt
          rw [floor_tick_mul]
    · simp at hmem'
  · unfold sliceRMS meanAbsSq
    simp
  · intro xs hz
    unfold sliceRMS meanAbsSq
    have hsum : (xs.map (fun a => |a| * |a|)).sum = 0 := by
      apply List.sum_eq_zero
      intro a ha
      obtain ⟨x, hx, rfl⟩ := List.mem_map.mp ha
      rw [hz x hx]
      simp
    rw [hsum]
    simp

/-- Witness for C8: a two-sample buffer at a 20 Hz sample rate emits a
level event at tick 0 whose slice is the head of the source buffer. -/
theorem play_ui_rms_semantics_witness :
    (PlayEff.uiLevel 0 [1] ∈
      (playWithInterruption
        ⟨fun _ => false, false, fun _ => false, true, fun _ => true,
          false, none⟩ [1, 1] 20).1) ∧
    ([1] : List ℚ) = sliceAt [1, 1] 20 ((0 : ℚ) / 20) ∧
    ((1 : ℝ) / 10000) < sliceRMS [1] := by
  have hmem : PlayEff.uiLevel 0 [1] ∈
      (playWithInterruption
        ⟨fun _ => false, false, fun _ => false, true, fun _ => true,
          false, none⟩ [1, 1] 20).1 := by
    with_unfolding_all decide
  obtain ⟨hs, -, hrms, -⟩ :=
    (play_ui_rms_semantics
      ⟨fun _ => false, false, fun _ => false, true, fun _ => true,
        false, none⟩ [1, 1] 20).1 0 [1] hmem
  exact ⟨hmem, hs, hrms⟩

/-- The `try:` body only resolves normally to `completed`, `cancelled`
or `interrupted` — never directly to `failed`. -/
theorem playBody_ok_ne_failed (env : PlayEnv) (audio : List ℚ) (sr : ℕ) :
    ∀ fuel k o, (playBody env audio sr fuel k).2 = InnerRes.ok o →
      o ≠ PlayOutcome.failed := by
  intro fuel
  induction fuel with
  | zero =>
    intro k o h
    simp only [playBody] at h
    cases h
    simp
  | succ fuel ih =>
    intro k o h
    rw [playBody] at h
    by_cases hg : k * sr < 20 * audio.length
    · rw [if_pos hg] at h
      by_cases hr : env.raiseAt = some k
      · rw [if_pos hr] at h; cases h
      · rw [if_neg hr] at h
        by_cases hs : env.stopRequested k
        · rw [if_pos hs] at h; cases h; simp
        · rw [if_neg hs] at h
          by_cases hi : env.hasInterruptCb && env.interruptPoll k
          · rw [if_pos hi] at h; cases h; simp
          · rw [if_neg hi] at h
            by_cases hstr : env.streamActive k
            · rw [if_pos hstr] at h
              exact ih (k + 1) o h
            · rw [if_neg hstr] at h; cases h; simp
    · rw [if_neg hg] at h; cases h; simp

theorem playAttempt_ok_ne_failed (env : PlayEnv) (audio : List ℚ) (sr : ℕ)
    (tr : List PlayEff) (o : PlayOutcome)
    (h : playAttempt env audio sr = (tr, InnerRes.ok o)) :
    o ≠ PlayOutcome.failed := by
  unfold playAttempt at h
  by_cases hpr : env.playRaises
  · rw [if_pos hpr] at h; cases h
  · rw [if_neg hpr] at h
    have h2 : (playBody env audio sr (20 * audio.length + 1) 0).2 =
        InnerRes.ok o := congrArg Prod.snd h
    exact playBody_ok_ne_failed env audio sr (20 * audio.length + 1) 0 o h2

/-- C7: an unexpected error raised inside the `try:` body of
`_play_with_interruption` (from `sd.play` or any polling tick) is caught
by the handler, which stops the device; the call resolves to the
`failed` outcome value rather than propagating, and `failed` arises
*only* from such an error. -/
theorem play_error_contained (env : PlayEnv) (audio : List ℚ) (sr : ℕ) :
    ((playAttempt env audio sr).2 = InnerRes.err →
      playWithInterruption env audio sr =
        ((playAttempt env audio sr).1 ++ [PlayEff.deviceStop],
          PlayOutcome.failed) ∧
      (playWithInterruption env audio sr).1.getLast? =
        some PlayEff.deviceStop) ∧
    ((playWithInterruption env audio sr).2 = PlayOutcome.failed ↔
      (playAttempt env audio sr).2 = InnerRes.err) := by
  rcases hres : playAttempt env audio sr with ⟨tr, res⟩
  cases res with
  | ok o =>
    have hw : playWithInterruption env audio sr = (tr, o) := by
      unfold playWithInterruption
      rw [hres]
    have hne : o ≠ PlayOutcome.failed :=
      playAttempt_ok_ne_failed env audio sr tr o hres
    rw [hw]
    constructor
    · intro h; simp at h
    · constructor
      · intro h
        exact absurd h hne
      · intro h; simp at h
  | err =>
    have hw : playWithInterruption env audio sr =
        (tr ++ [PlayEff.deviceStop], PlayOutcome.failed) := by
      unfold playWithInterruption
      rw [hres]
    rw [hw]
    refine ⟨fun _ => ⟨rfl, by simp⟩, by simp⟩

/-- Witness for C7: a failing `sd.play` resolves to `failed` with the
device stopped. -/
theorem play_error_contained_witness :
    (playAttempt
      ⟨fun _ => false, false, fun _ => false, false, fun _ => true,
        true, none⟩ [1] 16000).2 = InnerRes.err ∧
    playWithInterruption
      ⟨fun _ => false, false, fun _ => false, false, fun _ => true,
        true, none⟩ [1] 16000 =
      ([PlayEff.deviceStop], PlayOutcome.failed) := by
  have herr : (playAttempt
      ⟨fun _ => false, false, fun _ => false, false, fun _ => true,
        true, none⟩ [1] 16000).2 = InnerRes.err := by
    with_unfolding_all rfl
  have h := (play_error_contained
    ⟨fun _ => false, false, fun _ => false, false, fun _ => true,
      true, none⟩ [1] 16000).1 herr
  refine ⟨herr, ?_⟩
  rw [h.1]
  with_unfolding_all rfl

end QuietBox

namespace QuietBox

/-! ## InterruptibleTTS.speak and _speak_interruptible_coqui
(src/backends/interruptible_tts.py) -/

/-- Environment of one `_speak_interruptible_coqui` call: whether
`tts_to_file` raises, whether the output file exists afterwards, and
the playback environment.  `audio`/`sr` passed alongside are the
contents of the synthesized WAV file. -/
structure CoquiEnv where
  synthRaises : Bool
  fileExists : Bool
  playEnv : PlayEnv

/-- Observable effects of a `speak` call.  `engineSpeak` is a call to
the underlying engine's plain blocking `self.tts_engine.speak(text)` —
used both by the pyttsx3 path and by the `except` fallback of the Coqui
path. -/
inductive SpeakEff
  | synthWrite
  | playEff (e : PlayEff)
  | removeFile
  | engineSpeak
deriving DecidableEq, Repr

/-- `_speak_interruptible_coqui`: synthesize to a temp WAV, read it and
play with interruption, then remove the file; any exception in that
`try:` block (in particular a synthesis failure) falls back to
`self.tts_engine.speak(text)` — a second attempt through the plain
engine. -/
def speakCoqui (env : CoquiEnv) (audio : List ℚ) (sr : ℕ) : List SpeakEff :=
  if env.synthRaises then [SpeakEff.engineSpeak]
  else if env.fileExists then
    SpeakEff.synthWrite ::
      ((playWithInterruption env.playEnv audio sr).1.map SpeakEff.playEff ++
        [SpeakEff.removeFile])
  else [SpeakEff.synthWrite]

/-- Python's default whitespace set for `str.strip()`. -/
def pySpace (c : Char) : Bool :=
  c == ' ' || c == '\t' || c == '\n' || c == '\r' ||
    c == '\x0b' || c == '\x0c'

/-- Python `text.strip()` on a character list. -/
def pyStrip (l : List Char) : List Char :=
  ((l.dropWhile pySpace).reverse.dropWhile pySpace).reverse

/-- Shape of the wrapped engine as probed by `hasattr`:
`hasattr(self.tts_engine, 'speak')` and `hasattr(self.tts_engine, 'tts')`
(the latter identifies Coqui). -/
structure TtsEngineShape where
  hasSpeakAttr : Bool
  hasCoquiAttr : Bool

/-- `InterruptibleTTS.speak`: returns immediately on empty or
whitespace-only text (`if not text or not text.strip(): return`); else
dispatches on the engine shape. -/
def speak (shape : TtsEngineShape) (env : CoquiEnv) (audio : List ℚ)
    (sr : ℕ) (text : List Char) : List SpeakEff :=
  if text = [] ∨ pyStrip text = [] then []
  else if shape.hasSpeakAttr then
    if shape.hasCoquiAttr then speakCoqui env audio sr
    else [SpeakEff.engineSpeak]
  else []

/-- C10: empty or whitespace-only text makes `speak` return immediately:
no synthesis, no playback, no callback — no effects at all. -/
theorem speak_blank_noop (shape : TtsEngineShape) (env : CoquiEnv)
    (audio : List ℚ) (sr : ℕ) (text : List Char)
    (h : text = [] ∨ pyStrip text = []) :
    speak shape env audio sr text = [] := by
  unfold speak
  rw [if_pos h]

/-- Witness for C10: a text of one space and one tab is stripped to
nothing and produces no effects, on a Coqui-shaped engine. -/
theorem speak_blank_noop_witness :
    pyStrip [' ', '\t'] = [] ∧
    speak ⟨true, true⟩
      ⟨false, true, ⟨fun _ => false, false, fun _ => false, false,
        fun _ => true, false, none⟩⟩ [1] 16000 [' ', '\t'] = [] :=
  ⟨by decide,
   speak_blank_noop _ _ _ _ _ (Or.inr (by decide))⟩

/-- C5 counterexample: when synthesis fails inside the interruptible
Coqui path, the very same utterance is automatically re-attempted
through the underlying engine's plain `speak` — an alternative-path
retry. -/
theorem synth_failure_retries_fallback :
    speakCoqui
      ⟨true, true, ⟨fun _ => false, false, fun _ => false, false,
        fun _ => true, false, none⟩⟩ [1] 16000 =
      [SpeakEff.engineSpeak] := by
  with_unfolding_all rfl

theorem count_playEff_map (l : List PlayEff) :
    (l.map SpeakEff.playEff).count SpeakEff.engineSpeak = 0 := by
  rw [List.count_eq_zero]
  intro h
  obtain ⟨e, -, heq⟩ := List.mem_map.mp h
  cases heq

end QuietBox

namespace QuietBox

/-! ## The turn controller (src/main.py run_loop)

One iteration of the outer `while True` loop, from after the trigger to
returning to the trigger wait, with the external collaborators' answers
supplied by the environment.  Durations are what
`wave.open(...).getnframes() / getframerate()` reports; `durOk = false`
models that duration check raising (the code then continues with the
local `duration` still `0.0`). -/

/-- Effects the controller performs during a turn, in order. -/
inductive TEff
  | readyTone
  | record
  | transcribe
  | apology
  | thinkingCue
  | respond
  | speakReply
  | monStart
  | monCheck
  | monStop
  | monReset
deriving DecidableEq, Repr

/-- Environment of one follow-up round of the inner interruption loop:
whether the preceding `speak` was interrupted, and the follow-up
recording's duration-check outcome and transcript. -/
structure FollowEnv where
  interrupted : Bool
  fuDurOk : Bool
  fuDuration : ℚ
  fuTranscript : String

/-- Environment of one whole turn. -/
structure TurnEnv where
  durOk : Bool
  duration : ℚ
  transcript : String
  followups : List FollowEnv

/-- The local `duration` variable: the read value when the `wave.open`
check succeeded, else its initial `0.0`. -/
def effDuration (durOk : Bool) (d : ℚ) : ℚ := if durOk then d else 0

/-- The inner `while True` speaking loop (src/main.py lines 266-360):
arm the monitor, speak the reply, read the interrupt flag *then* stop
the monitor (the `finally:` block), reset; if interrupted, record a
follow-up, gate on the 0.3 s duration, transcribe, apologise on an
empty transcript, else respond and loop.  An exhausted environment list
means no further interruption occurs. -/
def speakLoop : List FollowEnv → List TEff
  | [] => [TEff.monStart, TEff.speakReply, TEff.monCheck, TEff.monStop,
      TEff.monReset]
  | f :: fs =>
    [TEff.monStart, TEff.speakReply, TEff.monCheck, TEff.monStop] ++
    (if f.interrupted = false then [TEff.monReset]
     else
       [TEff.monReset, TEff.readyTone, TEff.record] ++
       (if f.fuDurOk = true ∧ f.fuDuration < 3 / 10 then []
        else [TEff.transcribe] ++
          (if f.fuTranscript = "" then
             (if effDuration f.fuDurOk f.fuDuration ≥ 3 / 10 then
               [TEff.apology] else [])
           else [TEff.thinkingCue, TEff.respond] ++ speakLoop fs)))

/-- One turn of `run_loop` after the trigger: ready tone, recording,
the 0.3 s short-recording gate (`continue` on failure), transcription,
the empty-transcript apology path, and otherwise the audible
"Thinking" cue, response generation and the speaking loop.  Every exit
returns control to the trigger wait. -/
def turnRun (env : TurnEnv) : List TEff :=
  [TEff.readyTone, TEff.record] ++
  (if env.durOk = true ∧ env.duration < 3 / 10 then []
   else [TEff.transcribe] ++
     (if env.transcript = "" then
        (if effDuration env.durOk env.duration ≥ 3 / 10 then
          [TEff.apology] else [])
      else [TEff.thinkingCue, TEff.respond] ++ speakLoop env.followups))

/-- A recording stopped by the no-speech rule indeed observed no voiced
frame and ran past the 5 s timeout. -/
theorem stopCheck_noSpeech_inv (p : RecParams) (s : RecState) (f : RecFrame)
    (h : stopCheck p s f = some StopReason.noSpeechTimeout) :
    s.speechDetected = false ∧ f.t - s.start > 5 := by
  unfold stopCheck at h
  split_ifs at h with h1 h2 h3
  · exact h1
  · cases h
  · cases h

/-- An idealised fully silent frame stream with exact 30 ms frame
timing, starting at instant 0: frame `k` is observed at `(k+1) * 0.03`
seconds. -/
def idealSilentFrames (n : ℕ) : List RecFrame :=
  (List.range n).map (fun k => ⟨false, ((k : ℚ) + 1) * (3 / 100)⟩)

end QuietBox

namespace QuietBox

/-- C3 counterexample: a fully silent 170-frame stream (ideal 30 ms
timing) stops via the no-speech rule after 167 frames — a `5.01` s
recording with no voiced frame — yet the turn with that recording's
duration `167 * 0.03 = 5.01 ≥ 0.3` *does* invoke the transcriber: the
0.3 s gate is the only thing standing between recording and
transcription, and it does not recognise a no-speech recording. -/
theorem no_speech_recording_is_transcribed :
    (recordRun defaultRecParams (recInit 0) (idealSilentFrames 170)).2 =
      some StopReason.noSpeechTimeout ∧
    (recordRun defaultRecParams (recInit 0) (idealSilentFrames 170)).1.numFrames
      = 167 ∧
    (167 : ℚ) * (3 / 100) ≥ 3 / 10 ∧
    TEff.transcribe ∈ turnRun ⟨true, 167 * (3 / 100), "", []⟩ := by
  with_unfolding_all decide

/-- C3 (amended): a recording stopped via the no-speech rule observed no
voiced frame, but ran past the 5 s timeout, so its duration defeats the
0.3 s short-recording gate and the controller *does* invoke the
transcriber on it; the turn still returns to the trigger wait without
generating a response when the transcript comes back empty, after
speaking the apology. -/
theorem no_speech_turn (p : RecParams) (st : ℚ) (frames : List RecFrame)
    (s : RecState) (env : TurnEnv)
    (hrec : recordRun p (recInit st) frames =
      (s, some StopReason.noSpeechTimeout))
    (hdur : env.durOk = true) (hd : env.duration ≥ 3 / 10) :
    s.speechDetected = false ∧
    TEff.transcribe ∈ turnRun env ∧
    (env.transcript = "" →
      turnRun env =
        [TEff.readyTone, TEff.record, TEff.transcribe, TEff.apology] ∧
      TEff.respond ∉ turnRun env) := by
  have hgate : ¬ (env.durOk = true ∧ env.duration < 3 / 10) := by
    rintro ⟨-, hlt⟩
    exact absurd hlt (not_lt.mpr hd)
  refine ⟨?_, ?_, ?_⟩
  · obtain ⟨k, hk, -, hs⟩ :=
      (recordRun_eq_iff p (recInit st) frames s StopReason.noSpeechTimeout).mp
        hrec
    unfold firesAt at hk
    cases hget : frames.get? k with
    | none => rw [hget] at hk; cases hk
    | some f =>
      rw [hget] at hk
      obtain ⟨hsd, -⟩ := stopCheck_noSpeech_inv p _ f hk
      rw [hs]
      exact hsd
  · unfold turnRun
    rw [if_neg hgate]
    simp
  · intro ht
    have hap : effDuration env.durOk env.duration ≥ 3 / 10 := by
      unfold effDuration
      rw [if_pos hdur]
      exact hd
    constructor
    · unfold turnRun
      rw [if_neg hgate, if_pos ht, if_pos hap]
      rfl
    · unfold turnRun
      rw [if_neg hgate, if_pos ht, if_pos hap]
      decide

/-- Witness for C3 (amended), at the 170-frame silent stream and its
resulting turn. -/
theorem no_speech_turn_witness :
    recordRun defaultRecParams (recInit 0) (idealSilentFrames 170) =
      (⟨167, false, 0, 0⟩, some StopReason.noSpeechTimeout) ∧
    (⟨167, false, 0, 0⟩ : RecState).speechDetected = false ∧
    turnRun ⟨true, 501 / 100, "", []⟩ =
      [TEff.readyTone, TEff.record, TEff.transcribe, TEff.apology] := by
  have hrec : recordRun defaultRecParams (recInit 0) (idealSilentFrames 170) =
      (⟨167, false, 0, 0⟩, some StopReason.noSpeechTimeout) := by
    with_unfolding_all decide
  have h := no_speech_turn defaultRecParams 0 (idealSilentFrames 170)
    ⟨167, false, 0, 0⟩ ⟨true, 501 / 100, "", []⟩ hrec rfl
    (by with_unfolding_all decide)
  exact ⟨hrec, h.1, (h.2.2 rfl).1⟩

theorem speakLoop_counts (fs : List FollowEnv) :
    (speakLoop fs).count TEff.transcribe ≤ (speakLoop fs).count TEff.record ∧
    (speakLoop fs).count TEff.respond ≤
      (speakLoop fs).count TEff.transcribe := by
  induction fs with
  | nil => exact ⟨by decide, by decide⟩
  | cons f fs ih =>
    unfold speakLoop
    by_cases hi : f.interrupted = false
    · rw [if_pos hi]
      exact ⟨by decide, by decide⟩
    · rw [if_neg hi]
      by_cases hg : f.fuDurOk = true ∧ f.fuDuration < 3 / 10
      · rw [if_pos hg]
        exact ⟨by decide, by decide⟩
      · rw [if_neg hg]
        by_cases ht : f.fuTranscript = ""
        · rw [if_pos ht]
          by_cases ha : effDuration f.fuDurOk f.fuDuration ≥ 3 / 10
          · rw [if_pos ha]
            exact ⟨by decide, by decide⟩
          · rw [if_neg ha]
            exact ⟨by decide, by decide⟩
        · rw [if_neg ht]
          obtain ⟨ih1, ih2⟩ := ih
          simp [List.count_append, List.count_cons]
          constructor <;> omega

theorem turnRun_counts (env : TurnEnv) :
    (turnRun env).count TEff.transcribe ≤ (turnRun env).count TEff.record ∧
    (turnRun env).count TEff.respond ≤ (turnRun env).count TEff.transcribe := by
  unfold turnRun
  by_cases hg : env.durOk = true ∧ env.duration < 3 / 10
  · rw [if_pos hg]
    exact ⟨by decide, by decide⟩
  · rw [if_neg hg]
    by_cases ht : env.transcript = ""
    · rw [if_pos ht]
      by_cases ha : effDuration env.durOk env.duration ≥ 3 / 10
      · rw [if_pos ha]
        exact ⟨by decide, by decide⟩
      · rw [if_neg ha]
        exact ⟨by decide, by decide⟩
    · rw [if_neg ht]
      obtain ⟨h1, h2⟩ := speakLoop_counts env.followups
      simp [List.count_append, List.count_cons]
      constructor <;> omega

/-- C5 (amended): the only automatic retry in the core is the Coqui
fallback — a failure inside the interruptible TTS path re-attempts the
utterance exactly once through the underlying engine's plain `speak`,
and no fallback happens otherwise (in particular not for playback
errors, which resolve as a contained `failed` outcome); the controller
itself never re-attempts transcription or generation: per turn it
transcribes at most once per recording and responds at most once per
transcription. -/
theorem no_retry_policy (env : CoquiEnv) (audio : List ℚ) (sr : ℕ)
    (tenv : TurnEnv) :
    ((speakCoqui env audio sr).count SpeakEff.engineSpeak =
      if env.synthRaises = true then 1 else 0) ∧
    ((turnRun tenv).count TEff.transcribe ≤
      (turnRun tenv).count TEff.record) ∧
    ((turnRun tenv).count TEff.respond ≤
      (turnRun tenv).count TEff.transcribe) := by
  refine ⟨?_, (turnRun_counts tenv).1, (turnRun_counts tenv).2⟩
  unfold speakCoqui
  cases hs : env.synthRaises with
  | true =>
    rw [if_pos rfl]
    decide
  | false =>
    rw [if_neg (by simp)]
    by_cases hf : env.fileExists
    · rw [if_pos hf]
      simp only [List.count_cons, List.count_append, count_playEff_map,
        List.count_nil]
      decide
    · rw [if_neg hf]
      decide

end QuietBox
